import Mathlib

/-!
Shallow embedding of the staggered MAC-grid sand simulator (src/macgrid.py).
Lattices are modelled as total functions on ℕ³ index triples with rational
values (every f32 field of the source is modelled over ℚ); Taichi kernels
become pure state transformers on SimState.  Each data-parallel pass is
modelled with its barrier semantics: a pass reads only the state produced by
the previous pass.  Scatter writes of a single splat are modelled as the
sequence of eight += updates of the source, in source order.
-/

namespace MacGrid

/-- Index triple (i, j, k) of a lattice site. -/
abbrev Idx : Type := ℕ × ℕ × ℕ

/-- Index triple of a particle slot in the (2·grid_size)³ particle lattice. -/
abbrev Slot : Type := ℕ × ℕ × ℕ

/-- A scalar lattice, modelled as a total function on index triples. -/
abbrev Grid : Type := Idx → ℚ

/-- A 3-vector of rationals (particle positions and velocities). -/
abbrev Vec3 : Type := ℚ × ℚ × ℚ

/-- A 3×3 tensor stored per cell (strain rate, stresses). -/
abbrev Mat3 : Type := Fin 3 → Fin 3 → ℚ

/-- The three inclusive index-range pairs of initial_sand_cells. -/
abbrev SandRegion : Type := (ℤ × ℤ) × (ℤ × ℤ) × (ℤ × ℤ)

/-- CellType.AIR.value, as stored in the f32 cell_type field. -/
def AIR : ℚ := 0

/-- CellType.SAND.value. -/
def SAND : ℚ := 1

/-- CellType.SOLID.value. -/
def SOLID : ℚ := 2

/-- Python/Taichi int() cast on a real value: truncation toward zero. -/
def trunc (q : ℚ) : ℤ := if 0 ≤ q then ⌊q⌋ else ⌈q⌉

/-- MacGrid.clamp at integer type: max(min_bound, min(x, max_bound)). -/
def clampI (x lo hi : ℤ) : ℤ := max lo (min x hi)

/-- MacGrid.clamp at rational (f32) type. -/
def clampQ (x lo hi : ℚ) : ℚ := max lo (min x hi)

/-- The clamped lower corner index used by sample and splat on one axis:
x_down = clamp(int(x - x_offset), 0, x_resolution - 1). -/
def idx_down (p off : ℚ) (res : ℕ) : ℕ :=
  (clampI (trunc (p - off)) 0 ((res : ℤ) - 1)).toNat

/-- The clamped upper corner index used by sample and splat on one axis:
x_up = clamp(x_down + 1, 0, x_resolution - 1). -/
def idx_up (p off : ℚ) (res : ℕ) : ℕ :=
  (clampI ((idx_down p off res : ℤ) + 1) 0 ((res : ℤ) - 1)).toNat

/-- The clamped fractional interpolation factor used by sample and splat on
one axis: diff_x = clamp(x - x_offset - x_down, 0.0, 1.0). -/
def frac (p off : ℚ) (res : ℕ) : ℚ :=
  clampQ (p - off - (idx_down p off res : ℚ)) 0 1

/-- MacGrid.sample: trilinear gather with grid origin at the given offsets,
blending along x, then z, then y, exactly as in the source. -/
def sample (g : Grid) (x y z xo yo zo : ℚ) (rx ry rz : ℕ) : ℚ :=
  let x_down := idx_down x xo rx
  let y_down := idx_down y yo ry
  let z_down := idx_down z zo rz
  let x_up := idx_up x xo rx
  let y_up := idx_up y yo ry
  let z_up := idx_up z zo rz
  let diff_x := frac x xo rx
  let diff_y := frac y yo ry
  let diff_z := frac z zo rz
  let x_val_front_down :=
    g (x_down, y_down, z_down) * (1 - diff_x) + g (x_up, y_down, z_down) * diff_x
  let x_val_back_down :=
    g (x_down, y_down, z_up) * (1 - diff_x) + g (x_up, y_down, z_up) * diff_x
  let x_val_front_up :=
    g (x_down, y_up, z_down) * (1 - diff_x) + g (x_up, y_up, z_down) * diff_x
  let x_val_back_up :=
    g (x_down, y_up, z_up) * (1 - diff_x) + g (x_up, y_up, z_up) * diff_x
  let xz_val_down := x_val_front_down * (1 - diff_z) + x_val_back_down * diff_z
  let xz_val_up := x_val_front_up * (1 - diff_z) + x_val_back_up * diff_z
  xz_val_down * (1 - diff_y) + xz_val_up * diff_y

/-- MacGrid.sample_cell_centered: offsets 0.5 everywhere, resolution N³. -/
def sample_cell_centered (N : ℕ) (g : Grid) (x y z : ℚ) : ℚ :=
  sample g x y z 0.5 0.5 0.5 N N N

/-- MacGrid.sample_x_edged: offset 0 along x, 0.5 along y and z,
resolution (N+1, N, N). -/
def sample_x_edged (N : ℕ) (g : Grid) (x y z : ℚ) : ℚ :=
  sample g x y z 0 0.5 0.5 (N + 1) N N

/-- MacGrid.sample_y_edged: offset 0 along y, resolution (N, N+1, N). -/
def sample_y_edged (N : ℕ) (g : Grid) (x y z : ℚ) : ℚ :=
  sample g x y z 0.5 0 0.5 N (N + 1) N

/-- MacGrid.sample_z_edged: offset 0 along z, resolution (N, N, N+1). -/
def sample_z_edged (N : ℕ) (g : Grid) (x y z : ℚ) : ℚ :=
  sample g x y z 0.5 0.5 0 N N (N + 1)

/-- One += update of a lattice at one site. -/
def addAt (g : Grid) (p : Idx) (w : ℚ) : Grid :=
  fun q => if q = p then g q + w else g q

/-- MacGrid.splat: the scatter transpose of sample.  Performs the eight
value += and weight += writes of the source, in source order, and returns
the updated (target_field, weights) pair. -/
def splat (target : Grid) (x y z pv : ℚ) (weights : Grid) (xo yo zo : ℚ)
    (rx ry rz : ℕ) : Grid × Grid :=
  let x_down := idx_down x xo rx
  let y_down := idx_down y yo ry
  let z_down := idx_down z zo rz
  let x_up := idx_up x xo rx
  let y_up := idx_up y yo ry
  let z_up := idx_up z zo rz
  let diff_x := frac x xo rx
  let diff_y := frac y yo ry
  let diff_z := frac z zo rz
  let t1 := addAt target (x_down, y_down, z_down)
    (pv * (1 - diff_x) * (1 - diff_y) * (1 - diff_z))
  let w1 := addAt weights (x_down, y_down, z_down)
    ((1 - diff_x) * (1 - diff_y) * (1 - diff_z))
  let t2 := addAt t1 (x_up, y_down, z_down)
    (pv * diff_x * (1 - diff_y) * (1 - diff_z))
  let w2 := addAt w1 (x_up, y_down, z_down) (diff_x * (1 - diff_y) * (1 - diff_z))
  let t3 := addAt t2 (x_down, y_up, z_down)
    (pv * (1 - diff_x) * diff_y * (1 - diff_z))
  let w3 := addAt w2 (x_down, y_up, z_down) ((1 - diff_x) * diff_y * (1 - diff_z))
  let t4 := addAt t3 (x_down, y_down, z_up)
    (pv * (1 - diff_x) * (1 - diff_y) * diff_z)
  let w4 := addAt w3 (x_down, y_down, z_up) ((1 - diff_x) * (1 - diff_y) * diff_z)
  let t5 := addAt t4 (x_up, y_down, z_up) (pv * diff_x * (1 - diff_y) * diff_z)
  let w5 := addAt w4 (x_up, y_down, z_up) (diff_x * (1 - diff_y) * diff_z)
  let t6 := addAt t5 (x_up, y_up, z_down) (pv * diff_x * diff_y * (1 - diff_z))
  let w6 := addAt w5 (x_up, y_up, z_down) (diff_x * diff_y * (1 - diff_z))
  let t7 := addAt t6 (x_down, y_up, z_up) (pv * (1 - diff_x) * diff_y * diff_z)
  let w7 := addAt w6 (x_down, y_up, z_up) ((1 - diff_x) * diff_y * diff_z)
  let t8 := addAt t7 (x_up, y_up, z_up) (pv * diff_x * diff_y * diff_z)
  let w8 := addAt w7 (x_up, y_up, z_up) (diff_x * diff_y * diff_z)
  (t8, w8)

/-- The eight trilinear corner weights of sample/splat at a query point,
listed in the order of the eight splat writes. -/
def cornerWeights (x y z xo yo zo : ℚ) (rx ry rz : ℕ) : List ℚ :=
  [(1 - frac x xo rx) * (1 - frac y yo ry) * (1 - frac z zo rz),
   frac x xo rx * (1 - frac y yo ry) * (1 - frac z zo rz),
   (1 - frac x xo rx) * frac y yo ry * (1 - frac z zo rz),
   (1 - frac x xo rx) * (1 - frac y yo ry) * frac z zo rz,
   frac x xo rx * (1 - frac y yo ry) * frac z zo rz,
   frac x xo rx * frac y yo ry * (1 - frac z zo rz),
   (1 - frac x xo rx) * frac y yo ry * frac z zo rz,
   frac x xo rx * frac y yo ry * frac z zo rz]

/-- The total trilinear weight a single splat at (x,y,z) deposits on lattice
site c: the sum of the weights of the corners that coincide with c. -/
def splatWeightAt (x y z xo yo zo : ℚ) (rx ry rz : ℕ) (c : Idx) : ℚ :=
  (if c = (idx_down x xo rx, idx_down y yo ry, idx_down z zo rz) then
    (1 - frac x xo rx) * (1 - frac y yo ry) * (1 - frac z zo rz) else 0)
  + (if c = (idx_up x xo rx, idx_down y yo ry, idx_down z zo rz) then
    frac x xo rx * (1 - frac y yo ry) * (1 - frac z zo rz) else 0)
  + (if c = (idx_down x xo rx, idx_up y yo ry, idx_down z zo rz) then
    (1 - frac x xo rx) * frac y yo ry * (1 - frac z zo rz) else 0)
  + (if c = (idx_down x xo rx, idx_down y yo ry, idx_up z zo rz) then
    (1 - frac x xo rx) * (1 - frac y yo ry) * frac z zo rz else 0)
  + (if c = (idx_up x xo rx, idx_down y yo ry, idx_up z zo rz) then
    frac x xo rx * (1 - frac y yo ry) * frac z zo rz else 0)
  + (if c = (idx_up x xo rx, idx_up y yo ry, idx_down z zo rz) then
    frac x xo rx * frac y yo ry * (1 - frac z zo rz) else 0)
  + (if c = (idx_down x xo rx, idx_up y yo ry, idx_up z zo rz) then
    (1 - frac x xo rx) * frac y yo ry * frac z zo rz else 0)
  + (if c = (idx_up x xo rx, idx_up y yo ry, idx_up z zo rz) then
    frac x xo rx * frac y yo ry * frac z zo rz else 0)

/-- The index domain of a lattice of per-axis resolutions (rx, ry, rz). -/
def sites (rx ry rz : ℕ) : Finset Idx :=
  Finset.range rx ×ˢ Finset.range ry ×ˢ Finset.range rz

/-- Sum of a lattice over its whole allocated index domain. -/
def gridTotal (rx ry rz : ℕ) (g : Grid) : ℚ :=
  ∑ c ∈ sites rx ry rz, g c

/-- The full field and particle state of a MacGrid instance, one member per
ti.field of the constructor, plus the constructor parameter pic_fraction. -/
structure SimState where
  cell_type : Grid
  pressure : Grid
  divergence : Grid
  strain_rate : Idx → Mat3
  frictional_stress : Idx → Mat3
  frictional_stress_divergence : Grid
  rigid_stress : Idx → Mat3
  cell_rigid : Idx → ℤ
  v_x : Grid
  v_y : Grid
  v_z : Grid
  v_x_saved : Grid
  v_y_saved : Grid
  v_z_saved : Grid
  f_x : Grid
  f_y : Grid
  f_z : Grid
  splat_x_weights : Grid
  splat_y_weights : Grid
  splat_z_weights : Grid
  particle_pos : Slot → Vec3
  particle_edge_pos : Slot → Vec3
  particle_v : Slot → Vec3
  particle_active : Slot → ℤ
  pic_fraction : ℚ

/-- The particle-slot index domain (2N)³ as a Finset. -/
def slotFinset (N : ℕ) : Finset Slot :=
  Finset.range (2 * N) ×ˢ Finset.range (2 * N) ×ˢ Finset.range (2 * N)

/-- The particle-slot index domain (2N)³ as a list (iteration order of the
particle loops; all passes below are order-independent). -/
def slotList (N : ℕ) : List Slot :=
  (List.range (2 * N)).flatMap fun i =>
    (List.range (2 * N)).flatMap fun j =>
      (List.range (2 * N)).map fun k => (i, j, k)

/-- The cell containing a particle, each position component cast with int()
and clamped to [0, grid_size - 1], as in update_cell_types and
update_particle_edge_pos. -/
def clampedCell (N : ℕ) (p : Vec3) : Idx :=
  ((clampI (trunc p.1) 0 ((N : ℤ) - 1)).toNat,
   (clampI (trunc p.2.1) 0 ((N : ℤ) - 1)).toNat,
   (clampI (trunc p.2.2) 0 ((N : ℤ) - 1)).toNat)

/-- MacGrid.init_cell_type: boundary shell SOLID, the configured inclusive
initial box SAND, everything else AIR. -/
def init_cell_type (N : ℕ) (sand : SandRegion) : Grid := fun c =>
  if c.1 = 0 ∨ c.2.1 = 0 ∨ c.2.2 = 0 ∨ c.1 = N - 1 ∨ c.2.1 = N - 1 ∨ c.2.2 = N - 1
  then SOLID
  else if sand.1.1 ≤ (c.1 : ℤ) ∧ (c.1 : ℤ) ≤ sand.1.2
      ∧ sand.2.1.1 ≤ (c.2.1 : ℤ) ∧ (c.2.1 : ℤ) ≤ sand.2.1.2
      ∧ sand.2.2.1 ≤ (c.2.2 : ℤ) ∧ (c.2.2 : ℤ) ≤ sand.2.2.2
  then SAND
  else AIR

/-- MacGrid.reset_cell_type: clear_field to 0, then re-assert SOLID on the
boundary shell. -/
def reset_cell_type (N : ℕ) : Grid := fun c =>
  if c.1 = 0 ∨ c.2.1 = 0 ∨ c.2.2 = 0 ∨ c.1 = N - 1 ∨ c.2.1 = N - 1 ∨ c.2.2 = N - 1
  then SOLID
  else 0

/-- The SAND-marking pass of update_cell_types.  The loop scatters the single
constant SAND to the clamped cell of every active particle whose cell is not
SOLID; since all writes store the same constant the pass is order-independent
and a cell ends SAND exactly when some active slot maps to it. -/
def markSand (N : ℕ) (ppos : Slot → Vec3) (pactive : Slot → ℤ) : Grid := fun c =>
  if reset_cell_type N c ≠ SOLID
      ∧ ∃ s ∈ slotFinset N, pactive s = 1 ∧ clampedCell N (ppos s) = c
  then SAND
  else reset_cell_type N c

/-- MacGrid.update_cell_types: reset_cell_type, mark occupied non-SOLID cells
SAND, then turn every remaining non-SOLID non-SAND cell into AIR. -/
def update_cell_types (N : ℕ) (st : SimState) : SimState :=
  { st with cell_type := fun c =>
      if markSand N st.particle_pos st.particle_active c ≠ SOLID
          ∧ markSand N st.particle_pos st.particle_active c ≠ SAND
      then AIR
      else markSand N st.particle_pos st.particle_active c }

/-- MacGrid.neumann_boundary_conditions: for every cell (i,j,k) of the N³
cell grid with i = 0 or i = N-1, zero v_x[i,j,k] and v_x[i+1,j,k], and
analogously for j with v_y and k with v_z. -/
def neumann_boundary_conditions (N : ℕ) (st : SimState) : SimState :=
  { st with
    v_x := fun c =>
      if (∃ i ∈ Finset.range N, (i = 0 ∨ i = N - 1) ∧ (c.1 = i ∨ c.1 = i + 1))
          ∧ c.2.1 < N ∧ c.2.2 < N
      then 0 else st.v_x c
    v_y := fun c =>
      if c.1 < N
          ∧ (∃ j ∈ Finset.range N, (j = 0 ∨ j = N - 1) ∧ (c.2.1 = j ∨ c.2.1 = j + 1))
          ∧ c.2.2 < N
      then 0 else st.v_y c
    v_z := fun c =>
      if c.1 < N ∧ c.2.1 < N
          ∧ (∃ k ∈ Finset.range N, (k = 0 ∨ k = N - 1) ∧ (c.2.2 = k ∨ c.2.2 = k + 1))
      then 0 else st.v_z c }

/-- The jitter added to an octant point from one draw r of ti.random(int):
((r % 50) - 25) / 100, with the Python-style modulo of Taichi. -/
def jitter (r : ℤ) : ℚ := ((r % 50 - 25 : ℤ) : ℚ) / 100

/-- The active flag assigned by MacGrid.init_particles: a slot is active
exactly when the base cell (i div 2, j div 2, k div 2) is SAND. -/
def init_particles_active (cellType : Grid) (s : Slot) : ℤ :=
  if cellType (s.1 / 2, s.2.1 / 2, s.2.2 / 2) = SAND then 1 else 0

/-- The position assigned by MacGrid.init_particles, consuming three random
draws rnd s 0, rnd s 1, rnd s 2 per slot: even slot parity picks the quarter
point idx + 0.25, odd parity the three-quarter point idx + 0.75, each
jittered; slots over non-SAND cells keep their previous position. -/
def init_particles_pos (cellType : Grid) (rnd : Slot → Fin 3 → ℤ)
    (oldPos : Slot → Vec3) (s : Slot) : Vec3 :=
  if cellType (s.1 / 2, s.2.1 / 2, s.2.2 / 2) = SAND then
    ((if s.1 % 2 = 0 then ((s.1 / 2 : ℕ) : ℚ) + 0.25 + jitter (rnd s 0)
      else ((s.1 / 2 : ℕ) : ℚ) + 0.75 + jitter (rnd s 0)),
     (if s.2.1 % 2 = 0 then ((s.2.1 / 2 : ℕ) : ℚ) + 0.25 + jitter (rnd s 1)
      else ((s.2.1 / 2 : ℕ) : ℚ) + 0.75 + jitter (rnd s 1)),
     (if s.2.2 % 2 = 0 then ((s.2.2 / 2 : ℕ) : ℚ) + 0.25 + jitter (rnd s 2)
      else ((s.2.2 / 2 : ℕ) : ℚ) + 0.75 + jitter (rnd s 2)))
  else oldPos s

/-- MacGrid.reset_fields: clear_field on cell_type, pressure, divergence,
v_x, v_y, v_z, f_x, f_y, f_z, particle_pos, particle_v and particle_active,
then init_cell_type and init_particles.  No other field is touched. -/
def reset_fields (N : ℕ) (sand : SandRegion) (rnd : Slot → Fin 3 → ℤ)
    (st : SimState) : SimState :=
  let ct := init_cell_type N sand
  { st with
    cell_type := ct
    pressure := fun _ => 0
    divergence := fun _ => 0
    v_x := fun _ => 0
    v_y := fun _ => 0
    v_z := fun _ => 0
    f_x := fun _ => 0
    f_y := fun _ => 0
    f_z := fun _ => 0
    particle_pos := init_particles_pos ct rnd (fun _ => (0, 0, 0))
    particle_v := fun _ => (0, 0, 0)
    particle_active := init_particles_active ct }

/-- MacGrid.velocity_interpolation: sample the three staggered lattices at a
position. -/
def velocity_interpolation (N : ℕ) (pos : Vec3) (vx vy vz : Grid) : Vec3 :=
  (sample_x_edged N vx pos.1 pos.2.1 pos.2.2,
   sample_y_edged N vy pos.1 pos.2.1 pos.2.2,
   sample_z_edged N vz pos.1 pos.2.1 pos.2.2)

/-- MacGrid.grid_to_particles: first overwrite every saved-velocity site with
saved - current (the negated FLIP delta), then give every active particle
pic_fraction · PIC + (1 - pic_fraction) · (old velocity - sampled delta). -/
def grid_to_particles (N : ℕ) (st : SimState) : SimState :=
  let sx := fun c => st.v_x_saved c - st.v_x c
  let sy := fun c => st.v_y_saved c - st.v_y c
  let sz := fun c => st.v_z_saved c - st.v_z c
  { st with
    v_x_saved := sx
    v_y_saved := sy
    v_z_saved := sz
    particle_v := fun s =>
      if st.particle_active s = 1 then
        st.pic_fraction •
            velocity_interpolation N (st.particle_pos s) st.v_x st.v_y st.v_z
          + (1 - st.pic_fraction) •
            (st.particle_v s
              - velocity_interpolation N (st.particle_pos s) sx sy sz)
      else st.particle_v s }

/-- The accumulator state of particles_to_grid: the three velocity lattices
and the three splat-weight lattices. -/
structure P2G where
  vx : Grid
  vy : Grid
  vz : Grid
  wx : Grid
  wy : Grid
  wz : Grid

/-- One particle slot of the splat loop of particles_to_grid: an active slot
splats its velocity components through splat_x_edged, splat_y_edged and
splat_z_edged (offsets and resolutions inlined from those wrappers). -/
def p2g_step (N : ℕ) (ppos pv : Slot → Vec3) (pactive : Slot → ℤ)
    (a : P2G) (s : Slot) : P2G :=
  if pactive s = 1 then
    let sx := splat a.vx (ppos s).1 (ppos s).2.1 (ppos s).2.2 (pv s).1 a.wx
      0 0.5 0.5 (N + 1) N N
    let sy := splat a.vy (ppos s).1 (ppos s).2.1 (ppos s).2.2 (pv s).2.1 a.wy
      0.5 0 0.5 N (N + 1) N
    let sz := splat a.vz (ppos s).1 (ppos s).2.1 (ppos s).2.2 (pv s).2.2 a.wz
      0.5 0.5 0 N N (N + 1)
    ⟨sx.1, sy.1, sz.1, sx.2, sy.2, sz.2⟩
  else a

/-- The weight one slot contributes to site c of the x velocity lattice
during particles_to_grid (zero for inactive slots). -/
def p2g_x_weight (N : ℕ) (ppos : Slot → Vec3) (pactive : Slot → ℤ)
    (s : Slot) (c : Idx) : ℚ :=
  if pactive s = 1 then
    splatWeightAt (ppos s).1 (ppos s).2.1 (ppos s).2.2 0 0.5 0.5 (N + 1) N N c
  else 0

/-- The weight-times-velocity one slot contributes to site c of the x
velocity lattice during particles_to_grid. -/
def p2g_x_value (N : ℕ) (ppos pv : Slot → Vec3) (pactive : Slot → ℤ)
    (s : Slot) (c : Idx) : ℚ :=
  if pactive s = 1 then
    (pv s).1 *
      splatWeightAt (ppos s).1 (ppos s).2.1 (ppos s).2.2 0 0.5 0.5 (N + 1) N N c
  else 0

/-- As p2g_x_weight, for the y velocity lattice. -/
def p2g_y_weight (N : ℕ) (ppos : Slot → Vec3) (pactive : Slot → ℤ)
    (s : Slot) (c : Idx) : ℚ :=
  if pactive s = 1 then
    splatWeightAt (ppos s).1 (ppos s).2.1 (ppos s).2.2 0.5 0 0.5 N (N + 1) N c
  else 0

/-- As p2g_x_value, for the y velocity lattice. -/
def p2g_y_value (N : ℕ) (ppos pv : Slot → Vec3) (pactive : Slot → ℤ)
    (s : Slot) (c : Idx) : ℚ :=
  if pactive s = 1 then
    (pv s).2.1 *
      splatWeightAt (ppos s).1 (ppos s).2.1 (ppos s).2.2 0.5 0 0.5 N (N + 1) N c
  else 0

/-- As p2g_x_weight, for the z velocity lattice. -/
def p2g_z_weight (N : ℕ) (ppos : Slot → Vec3) (pactive : Slot → ℤ)
    (s : Slot) (c : Idx) : ℚ :=
  if pactive s = 1 then
    splatWeightAt (ppos s).1 (ppos s).2.1 (ppos s).2.2 0.5 0.5 0 N N (N + 1) c
  else 0

/-- As p2g_x_value, for the z velocity lattice. -/
def p2g_z_value (N : ℕ) (ppos pv : Slot → Vec3) (pactive : Slot → ℤ)
    (s : Slot) (c : Idx) : ℚ :=
  if pactive s = 1 then
    (pv s).2.2 *
      splatWeightAt (ppos s).1 (ppos s).2.1 (ppos s).2.2 0.5 0.5 0 N N (N + 1) c
  else 0

/-- MacGrid.particles_to_grid: clear the three velocity lattices and their
weight accumulators, splat every active particle, then divide every site
whose accumulated weight is positive by that weight. -/
def particles_to_grid (N : ℕ) (st : SimState) : SimState :=
  let acc := (slotList N).foldl
    (p2g_step N st.particle_pos st.particle_v st.particle_active)
    ⟨fun _ => 0, fun _ => 0, fun _ => 0, fun _ => 0, fun _ => 0, fun _ => 0⟩
  { st with
    v_x := fun c => if acc.wx c > 0 then acc.vx c / acc.wx c else acc.vx c
    v_y := fun c => if acc.wy c > 0 then acc.vy c / acc.wy c else acc.vy c
    v_z := fun c => if acc.wz c > 0 then acc.vz c / acc.wz c else acc.vz c
    splat_x_weights := acc.wx
    splat_y_weights := acc.wy
    splat_z_weights := acc.wz }

/-- The guard of update_particle_edge_pos: the clamped containing cell of a
position is strictly interior and its six face-adjacent cells are all SAND.
The condition reads only cell_type and the position, never the active flag. -/
def fullySurrounded (N : ℕ) (ct : Grid) (p : Vec3) : Prop :=
  (clampedCell N p).1 ≠ 0 ∧ (clampedCell N p).1 ≠ N - 1
  ∧ (clampedCell N p).2.1 ≠ 0 ∧ (clampedCell N p).2.1 ≠ N - 1
  ∧ (clampedCell N p).2.2 ≠ 0 ∧ (clampedCell N p).2.2 ≠ N - 1
  ∧ ct ((clampedCell N p).1 + 1, (clampedCell N p).2.1, (clampedCell N p).2.2) = SAND
  ∧ ct ((clampedCell N p).1 - 1, (clampedCell N p).2.1, (clampedCell N p).2.2) = SAND
  ∧ ct ((clampedCell N p).1, (clampedCell N p).2.1 + 1, (clampedCell N p).2.2) = SAND
  ∧ ct ((clampedCell N p).1, (clampedCell N p).2.1 - 1, (clampedCell N p).2.2) = SAND
  ∧ ct ((clampedCell N p).1, (clampedCell N p).2.1, (clampedCell N p).2.2 + 1) = SAND
  ∧ ct ((clampedCell N p).1, (clampedCell N p).2.1, (clampedCell N p).2.2 - 1) = SAND

instance (N : ℕ) (ct : Grid) (p : Vec3) : Decidable (fullySurrounded N ct p) := by
  unfold fullySurrounded
  infer_instance

/-- MacGrid.update_particle_edge_pos: every slot (active or not) whose
position satisfies fullySurrounded has its edge-position marker reset to the
origin; every other slot and every other field is untouched. -/
def update_particle_edge_pos (N : ℕ) (st : SimState) : SimState :=
  { st with particle_edge_pos := fun s =>
      if fullySurrounded N st.cell_type (st.particle_pos s)
      then ((0 : ℚ), (0 : ℚ), (0 : ℚ))
      else st.particle_edge_pos s }

/-- A concrete all-zero state with every particle slot active at position
(3/2, 3/2, 3/2), all cells SAND and pic_fraction 1/2, used to instantiate
theorems at concrete inputs. -/
def stBase : SimState where
  cell_type := fun _ => SAND
  pressure := fun _ => 0
  divergence := fun _ => 0
  strain_rate := fun _ _ _ => 0
  frictional_stress := fun _ _ _ => 0
  frictional_stress_divergence := fun _ => 0
  rigid_stress := fun _ _ _ => 0
  cell_rigid := fun _ => 0
  v_x := fun _ => 0
  v_y := fun _ => 0
  v_z := fun _ => 0
  v_x_saved := fun _ => 0
  v_y_saved := fun _ => 0
  v_z_saved := fun _ => 0
  f_x := fun _ => 0
  f_y := fun _ => 0
  f_z := fun _ => 0
  splat_x_weights := fun _ => 0
  splat_y_weights := fun _ => 0
  splat_z_weights := fun _ => 0
  particle_pos := fun _ => (3 / 2, 3 / 2, 3 / 2)
  particle_edge_pos := fun _ => (0, 0, 0)
  particle_v := fun _ => (0, 0, 0)
  particle_active := fun _ => 1
  pic_fraction := 1 / 2

set_option maxHeartbeats 1000000

lemma idx_down_le (p off : ℚ) (res : ℕ) (h : 1 ≤ res) :
    idx_down p off res ≤ res - 1 := by
  unfold idx_down clampI
  omega

lemma idx_up_le (p off : ℚ) (res : ℕ) (h : 1 ≤ res) :
    idx_up p off res ≤ res - 1 := by
  unfold idx_up clampI
  omega

lemma idx_down_lt (p off : ℚ) (res : ℕ) (h : 1 ≤ res) : idx_down p off res < res := by
  have := idx_down_le p off res h
  omega

lemma idx_up_lt (p off : ℚ) (res : ℕ) (h : 1 ≤ res) : idx_up p off res < res := by
  have := idx_up_le p off res h
  omega

lemma frac_nonneg (p off : ℚ) (res : ℕ) : 0 ≤ frac p off res := by
  unfold frac clampQ
  exact le_max_left _ _

lemma frac_le_one (p off : ℚ) (res : ℕ) : frac p off res ≤ 1 := by
  unfold frac clampQ
  exact max_le zero_le_one (min_le_right _ _)

lemma addAt_apply (g : Grid) (p : Idx) (w : ℚ) (q : Idx) :
    addAt g p w q = g q + (if q = p then w else 0) := by
  unfold addAt
  split <;> ring

lemma sample_const (v : ℚ) (x y z xo yo zo : ℚ) (rx ry rz : ℕ) :
    sample (fun _ => v) x y z xo yo zo rx ry rz = v := by
  simp only [sample]
  ring

lemma sample_sub (a b : Grid) (x y z xo yo zo : ℚ) (rx ry rz : ℕ) :
    sample (fun c => a c - b c) x y z xo yo zo rx ry rz
      = sample a x y z xo yo zo rx ry rz - sample b x y z xo yo zo rx ry rz := by
  simp only [sample]
  ring

lemma splat_snd_apply (t w : Grid) (x y z pv xo yo zo : ℚ) (rx ry rz : ℕ) (c : Idx) :
    (splat t x y z pv w xo yo zo rx ry rz).2 c
      = w c + splatWeightAt x y z xo yo zo rx ry rz c := by
  simp only [splat, addAt_apply, splatWeightAt]
  ring

lemma splat_fst_apply (t w : Grid) (x y z pv xo yo zo : ℚ) (rx ry rz : ℕ) (c : Idx) :
    (splat t x y z pv w xo yo zo rx ry rz).1 c
      = t c + pv * splatWeightAt x y z xo yo zo rx ry rz c := by
  simp only [splat, addAt_apply, splatWeightAt]
  split_ifs <;> ring

lemma mem_sites {rx ry rz a b c : ℕ} (ha : a < rx) (hb : b < ry) (hc : c < rz) :
    ((a, b, c) : Idx) ∈ sites rx ry rz := by
  simp [sites, Finset.mem_product, Finset.mem_range, ha, hb, hc]

lemma sum_ite_corner {rx ry rz : ℕ} {b : Idx} (hb : b ∈ sites rx ry rz) (w : ℚ) :
    (∑ c ∈ sites rx ry rz, if c = b then w else 0) = w := by
  rw [Finset.sum_ite_eq' (sites rx ry rz) b (fun _ => w), if_pos hb]

lemma splatWeightAt_total (x y z xo yo zo : ℚ) (rx ry rz : ℕ)
    (hx : 1 ≤ rx) (hy : 1 ≤ ry) (hz : 1 ≤ rz) :
    ∑ c ∈ sites rx ry rz, splatWeightAt x y z xo yo zo rx ry rz c = 1 := by
  have hdx := idx_down_lt x xo rx hx
  have hux := idx_up_lt x xo rx hx
  have hdy := idx_down_lt y yo ry hy
  have huy := idx_up_lt y yo ry hy
  have hdz := idx_down_lt z zo rz hz
  have huz := idx_up_lt z zo rz hz
  unfold splatWeightAt
  simp only [Finset.sum_add_distrib]
  rw [sum_ite_corner (mem_sites hdx hdy hdz), sum_ite_corner (mem_sites hux hdy hdz),
    sum_ite_corner (mem_sites hdx huy hdz), sum_ite_corner (mem_sites hdx hdy huz),
    sum_ite_corner (mem_sites hux hdy huz), sum_ite_corner (mem_sites hux huy hdz),
    sum_ite_corner (mem_sites hdx huy huz), sum_ite_corner (mem_sites hux huy huz)]
  ring

lemma splat_snd_total (g w : Grid) (x y z pv xo yo zo : ℚ) (rx ry rz : ℕ)
    (hx : 1 ≤ rx) (hy : 1 ≤ ry) (hz : 1 ≤ rz) :
    gridTotal rx ry rz (splat g x y z pv w xo yo zo rx ry rz).2
      = gridTotal rx ry rz w + 1 := by
  unfold gridTotal
  rw [Finset.sum_congr rfl fun c _ => splat_snd_apply g w x y z pv xo yo zo rx ry rz c,
    Finset.sum_add_distrib, splatWeightAt_total x y z xo yo zo rx ry rz hx hy hz]

lemma splat_fst_total (g w : Grid) (x y z pv xo yo zo : ℚ) (rx ry rz : ℕ)
    (hx : 1 ≤ rx) (hy : 1 ≤ ry) (hz : 1 ≤ rz) :
    gridTotal rx ry rz (splat g x y z pv w xo yo zo rx ry rz).1
      = gridTotal rx ry rz g + pv := by
  unfold gridTotal
  rw [Finset.sum_congr rfl fun c _ => splat_fst_apply g w x y z pv xo yo zo rx ry rz c,
    Finset.sum_add_distrib, ← Finset.mul_sum,
    splatWeightAt_total x y z xo yo zo rx ry rz hx hy hz, mul_one]

/-- Claim C1: for every query point, every lattice offset triple and every
resolution triple with positive per-axis resolutions (which covers the four
lattice kinds of the simulator), the eight trilinear corner weights shared by
sample and splat sum to exactly 1; sample is exactly the corner-weighted blend
of the eight corner values; consequently a single splat adds exactly 1 in
total to the weight buffer and exactly the particle value in total to the
target field, and sampling a lattice holding a constant returns that
constant. -/
theorem sample_splat_partition_of_unity (x y z xo yo zo pv v : ℚ) (rx ry rz : ℕ)
    (hx : 1 ≤ rx) (hy : 1 ≤ ry) (hz : 1 ≤ rz) (g w : Grid) :
    (cornerWeights x y z xo yo zo rx ry rz).sum = 1
    ∧ sample g x y z xo yo zo rx ry rz
      = g (idx_down x xo rx, idx_down y yo ry, idx_down z zo rz)
          * ((1 - frac x xo rx) * (1 - frac y yo ry) * (1 - frac z zo rz))
        + g (idx_up x xo rx, idx_down y yo ry, idx_down z zo rz)
          * (frac x xo rx * (1 - frac y yo ry) * (1 - frac z zo rz))
        + g (idx_down x xo rx, idx_up y yo ry, idx_down z zo rz)
          * ((1 - frac x xo rx) * frac y yo ry * (1 - frac z zo rz))
        + g (idx_down x xo rx, idx_down y yo ry, idx_up z zo rz)
          * ((1 - frac x xo rx) * (1 - frac y yo ry) * frac z zo rz)
        + g (idx_up x xo rx, idx_down y yo ry, idx_up z zo rz)
          * (frac x xo rx * (1 - frac y yo ry) * frac z zo rz)
        + g (idx_up x xo rx, idx_up y yo ry, idx_down z zo rz)
          * (frac x xo rx * frac y yo ry * (1 - frac z zo rz))
        + g (idx_down x xo rx, idx_up y yo ry, idx_up z zo rz)
          * ((1 - frac x xo rx) * frac y yo ry * frac z zo rz)
        + g (idx_up x xo rx, idx_up y yo ry, idx_up z zo rz)
          * (frac x xo rx * frac y yo ry * frac z zo rz)
    ∧ gridTotal rx ry rz (splat g x y z pv w xo yo zo rx ry rz).2
      = gridTotal rx ry rz w + 1
    ∧ gridTotal rx ry rz (splat g x y z pv w xo yo zo rx ry rz).1
      = gridTotal rx ry rz g + pv
    ∧ sample (fun _ => v) x y z xo yo zo rx ry rz = v := by
  refine ⟨?_, ?_, ?_, ?_, ?_⟩
  · simp only [cornerWeights, List.sum_cons, List.sum_nil]
    ring
  · simp only [sample]
    ring
  · exact splat_snd_total g w x y z pv xo yo zo rx ry rz hx hy hz
  · exact splat_fst_total g w x y z pv xo yo zo rx ry rz hx hy hz
  · exact sample_const v x y z xo yo zo rx ry rz

/-- Witness for C1 at a concrete query point and the cell-centered offsets
with resolutions (3, 3, 4). -/
theorem sample_splat_partition_of_unity_witness :
    (cornerWeights (1 / 3) (7 / 2) (-2) (1 / 2) (1 / 2) 0 3 3 4).sum = 1 :=
  (sample_splat_partition_of_unity (1 / 3) (7 / 2) (-2) (1 / 2) (1 / 2) 0 5 7 3 3 4
    (by decide) (by decide) (by decide) (fun _ => 2) (fun _ => 3)).1

/-- Claim C5: for every query point coordinate, every offset, and every
per-axis resolution used by the four lattice kinds at a positive grid size
(r = N or r = N + 1), the lower and upper corner indices used by sample to
read and by splat to write lie in [0, r - 1], and the fractional
interpolation weight lies in [0, 1]; hence sample and splat never access
storage out of bounds. -/
theorem sample_splat_indices_in_bounds (N : ℕ) (hN : 1 ≤ N) (p off : ℚ) (r : ℕ)
    (hr : r = N ∨ r = N + 1) :
    idx_down p off r ≤ r - 1 ∧ idx_up p off r ≤ r - 1
    ∧ 0 ≤ frac p off r ∧ frac p off r ≤ 1 := by
  have h1 : 1 ≤ r := by rcases hr with rfl | rfl <;> omega
  exact ⟨idx_down_le p off r h1, idx_up_le p off r h1,
    frac_nonneg p off r, frac_le_one p off r⟩

/-- Witness for C5 on the cell lattice axis of a grid of size 2. -/
theorem sample_splat_indices_in_bounds_witness :
    idx_down (7 / 3) (1 / 2) 2 ≤ 2 - 1 ∧ idx_up (7 / 3) (1 / 2) 2 ≤ 2 - 1
    ∧ 0 ≤ frac (7 / 3) (1 / 2) 2 ∧ frac (7 / 3) (1 / 2) 2 ≤ 1 :=
  sample_splat_indices_in_bounds 2 (by decide) (7 / 3) (1 / 2) 2 (Or.inl rfl)

lemma reset_cell_type_shell (N : ℕ) (c : Idx)
    (hc : c.1 = 0 ∨ c.2.1 = 0 ∨ c.2.2 = 0 ∨ c.1 = N - 1 ∨ c.2.1 = N - 1
      ∨ c.2.2 = N - 1) :
    reset_cell_type N c = SOLID := by
  unfold reset_cell_type
  rw [if_pos hc]

lemma init_cell_type_shell (N : ℕ) (sand : SandRegion) (c : Idx)
    (hc : c.1 = 0 ∨ c.2.1 = 0 ∨ c.2.2 = 0 ∨ c.1 = N - 1 ∨ c.2.1 = N - 1
      ∨ c.2.2 = N - 1) :
    init_cell_type N sand c = SOLID := by
  unfold init_cell_type
  rw [if_pos hc]

lemma update_cell_types_shell (N : ℕ) (st : SimState) (c : Idx)
    (hc : c.1 = 0 ∨ c.2.1 = 0 ∨ c.2.2 = 0 ∨ c.1 = N - 1 ∨ c.2.1 = N - 1
      ∨ c.2.2 = N - 1) :
    (update_cell_types N st).cell_type c = SOLID := by
  have hmark : markSand N st.particle_pos st.particle_active c = SOLID := by
    unfold markSand
    rw [reset_cell_type_shell N c hc]
    simp
  show (if markSand N st.particle_pos st.particle_active c ≠ SOLID
      ∧ markSand N st.particle_pos st.particle_active c ≠ SAND
    then AIR else markSand N st.particle_pos st.particle_active c) = SOLID
  rw [hmark]
  simp

/-- Claim C3: after the initial classification and after every per-step
reclassification, every cell with an index coordinate equal to 0 or
grid_size - 1 is SOLID, for every sand-region configuration, every particle
distribution and every active-flag configuration. -/
theorem classification_boundary_solid (N : ℕ) (sand : SandRegion) (st : SimState)
    (c : Idx)
    (hc : c.1 = 0 ∨ c.2.1 = 0 ∨ c.2.2 = 0 ∨ c.1 = N - 1 ∨ c.2.1 = N - 1
      ∨ c.2.2 = N - 1) :
    init_cell_type N sand c = SOLID
    ∧ (update_cell_types N st).cell_type c = SOLID :=
  ⟨init_cell_type_shell N sand c hc, update_cell_types_shell N st c hc⟩

/-- Witness for C3 at the shell cell (0, 2, 1) of a grid of size 3. -/
theorem classification_boundary_solid_witness :
    init_cell_type 3 ((1, 1), (1, 1), (1, 1)) (0, 2, 1) = SOLID
    ∧ (update_cell_types 3 stBase).cell_type (0, 2, 1) = SOLID :=
  classification_boundary_solid 3 ((1, 1), (1, 1), (1, 1)) stBase (0, 2, 1)
    (by decide)

/-- Counterexample to claim C6 as stated: with grid size 3 and every particle
active at position (1/2, 1/2, 1/2), the clamped containing cell of the active
particle in slot (0,0,0) is the shell cell (0,0,0), and after
update_cell_types that cell is SOLID — so an active particle inside the
boundary shell does have a SOLID containing cell. -/
theorem update_cell_types_shell_particle_counterexample :
    ({ stBase with particle_pos := fun _ => ((1 : ℚ) / 2, 1 / 2, 1 / 2) }
      : SimState).particle_active (0, 0, 0) = 1
    ∧ clampedCell 3
        (({ stBase with particle_pos := fun _ => ((1 : ℚ) / 2, 1 / 2, 1 / 2) }
          : SimState).particle_pos (0, 0, 0)) = (0, 0, 0)
    ∧ (update_cell_types 3
        { stBase with particle_pos := fun _ => ((1 : ℚ) / 2, 1 / 2, 1 / 2) }).cell_type
        (0, 0, 0) = SOLID := by
  refine ⟨rfl, ?_, ?_⟩
  · norm_num [clampedCell, trunc, clampI]
  · exact update_cell_types_shell 3 _ (0, 0, 0) (by decide)

/-- Claim C6 amended: after update_cell_types, every active particle slot
whose clamped containing cell does not lie on the boundary shell has a
non-SOLID (indeed SAND) containing cell.  (As stated the claim also covered
particles whose clamped cell lies on the shell; those keep a SOLID cell, see
the counterexample.) -/
theorem update_cell_types_active_interior_not_solid (N : ℕ) (st : SimState)
    (s : Slot) (hs : s ∈ slotFinset N) (hact : st.particle_active s = 1)
    (hins : ¬((clampedCell N (st.particle_pos s)).1 = 0
      ∨ (clampedCell N (st.particle_pos s)).2.1 = 0
      ∨ (clampedCell N (st.particle_pos s)).2.2 = 0
      ∨ (clampedCell N (st.particle_pos s)).1 = N - 1
      ∨ (clampedCell N (st.particle_pos s)).2.1 = N - 1
      ∨ (clampedCell N (st.particle_pos s)).2.2 = N - 1)) :
    (update_cell_types N st).cell_type (clampedCell N (st.particle_pos s))
      ≠ SOLID := by
  set c := clampedCell N (st.particle_pos s) with hcdef
  have hreset : reset_cell_type N c = 0 := by
    unfold reset_cell_type
    rw [if_neg hins]
  have hocc : ∃ s' ∈ slotFinset N,
      st.particle_active s' = 1 ∧ clampedCell N (st.particle_pos s') = c :=
    ⟨s, hs, hact, hcdef.symm⟩
  have hmark : markSand N st.particle_pos st.particle_active c = SAND := by
    unfold markSand
    rw [hreset]
    rw [if_pos ⟨by norm_num [SOLID], hocc⟩]
  show (if markSand N st.particle_pos st.particle_active c ≠ SOLID
      ∧ markSand N st.particle_pos st.particle_active c ≠ SAND
    then AIR else markSand N st.particle_pos st.particle_active c) ≠ SOLID
  rw [hmark]
  simp [SAND, SOLID]

/-- Witness for the amended C6: the active particle in slot (0,0,0) of
stBase sits at (3/2, 3/2, 3/2), whose clamped cell (1,1,1) is interior for
grid size 3 and is not SOLID after reclassification. -/
theorem update_cell_types_active_interior_not_solid_witness :
    (update_cell_types 3 stBase).cell_type
      (clampedCell 3 (stBase.particle_pos (0, 0, 0))) ≠ SOLID :=
  update_cell_types_active_interior_not_solid 3 stBase (0, 0, 0)
    (by decide) rfl (by norm_num [stBase, clampedCell, trunc, clampI])

lemma velocity_interpolation_sub (N : ℕ) (pos : Vec3) (a1 a2 a3 b1 b2 b3 : Grid) :
    velocity_interpolation N pos (fun c => a1 c - b1 c) (fun c => a2 c - b2 c)
        (fun c => a3 c - b3 c)
      = velocity_interpolation N pos a1 a2 a3
        - velocity_interpolation N pos b1 b2 b3 := by
  unfold velocity_interpolation sample_x_edged sample_y_edged sample_z_edged
  rw [Prod.mk_sub_mk, Prod.mk_sub_mk, sample_sub, sample_sub, sample_sub]

/-- Claim C2: grid_to_particles gives every active particle the velocity
pic_fraction · (sampled current grid velocity) + (1 - pic_fraction) ·
(old particle velocity - sampled (saved - current) delta); with
pic_fraction = 1 this is exactly the grid-sampled velocity, and with
pic_fraction = 0 it is the old velocity plus the sampled difference between
the current and the previously saved grid velocity. -/
theorem grid_to_particles_pic_flip (N : ℕ) (st : SimState) (s : Slot)
    (hact : st.particle_active s = 1) :
    ((grid_to_particles N st).particle_v s
      = st.pic_fraction •
          velocity_interpolation N (st.particle_pos s) st.v_x st.v_y st.v_z
        + (1 - st.pic_fraction) •
          (st.particle_v s
            - velocity_interpolation N (st.particle_pos s)
                (fun c => st.v_x_saved c - st.v_x c)
                (fun c => st.v_y_saved c - st.v_y c)
                (fun c => st.v_z_saved c - st.v_z c)))
    ∧ (st.pic_fraction = 1 → (grid_to_particles N st).particle_v s
        = velocity_interpolation N (st.particle_pos s) st.v_x st.v_y st.v_z)
    ∧ (st.pic_fraction = 0 → (grid_to_particles N st).particle_v s
        = st.particle_v s
          + (velocity_interpolation N (st.particle_pos s) st.v_x st.v_y st.v_z
            - velocity_interpolation N (st.particle_pos s)
                st.v_x_saved st.v_y_saved st.v_z_saved)) := by
  have h1 : (grid_to_particles N st).particle_v s
      = st.pic_fraction •
          velocity_interpolation N (st.particle_pos s) st.v_x st.v_y st.v_z
        + (1 - st.pic_fraction) •
          (st.particle_v s
            - velocity_interpolation N (st.particle_pos s)
                (fun c => st.v_x_saved c - st.v_x c)
                (fun c => st.v_y_saved c - st.v_y c)
                (fun c => st.v_z_saved c - st.v_z c)) := by
    simp only [grid_to_particles]
    rw [if_pos hact]
  refine ⟨h1, fun hp => ?_, fun hp => ?_⟩
  · rw [h1, hp]
    simp
  · rw [h1, hp, velocity_interpolation_sub]
    simp
    abel

/-- Witness for C2 on stBase with grid size 2 (pic_fraction 1/2). -/
theorem grid_to_particles_pic_flip_witness :
    (grid_to_particles 2 stBase).particle_v (0, 0, 0)
      = stBase.pic_fraction •
          velocity_interpolation 2 (stBase.particle_pos (0, 0, 0))
            stBase.v_x stBase.v_y stBase.v_z
        + (1 - stBase.pic_fraction) •
          (stBase.particle_v (0, 0, 0)
            - velocity_interpolation 2 (stBase.particle_pos (0, 0, 0))
                (fun c => stBase.v_x_saved c - stBase.v_x c)
                (fun c => stBase.v_y_saved c - stBase.v_y c)
                (fun c => stBase.v_z_saved c - stBase.v_z c)) :=
  (grid_to_particles_pic_flip 2 stBase (0, 0, 0) rfl).1

/-- Claim C10: update_particle_edge_pos resets the edge-position marker of
every slot — without consulting the active flag — whose clamped containing
cell is strictly interior with all six face-adjacent cells SAND, leaves the
markers of all other slots unchanged, and changes no other simulation state;
the result is identical under every active-flag assignment. -/
theorem update_particle_edge_pos_characterization (N : ℕ) (st : SimState)
    (s : Slot) :
    (fullySurrounded N st.cell_type (st.particle_pos s) →
      (update_particle_edge_pos N st).particle_edge_pos s
        = ((0 : ℚ), (0 : ℚ), (0 : ℚ)))
    ∧ (¬fullySurrounded N st.cell_type (st.particle_pos s) →
      (update_particle_edge_pos N st).particle_edge_pos s
        = st.particle_edge_pos s)
    ∧ (update_particle_edge_pos N st).particle_pos = st.particle_pos
    ∧ (update_particle_edge_pos N st).particle_v = st.particle_v
    ∧ (update_particle_edge_pos N st).particle_active = st.particle_active
    ∧ (update_particle_edge_pos N st).cell_type = st.cell_type
    ∧ (update_particle_edge_pos N st).v_x = st.v_x
    ∧ (update_particle_edge_pos N st).v_y = st.v_y
    ∧ (update_particle_edge_pos N st).v_z = st.v_z
    ∧ ∀ a : Slot → ℤ,
        (update_particle_edge_pos N
          { st with particle_active := a }).particle_edge_pos s
          = (update_particle_edge_pos N st).particle_edge_pos s := by
  refine ⟨fun h => ?_, fun h => ?_, rfl, rfl, rfl, rfl, rfl, rfl, rfl,
    fun a => rfl⟩
  · show (if fullySurrounded N st.cell_type (st.particle_pos s)
        then ((0 : ℚ), (0 : ℚ), (0 : ℚ)) else st.particle_edge_pos s)
      = ((0 : ℚ), (0 : ℚ), (0 : ℚ))
    rw [if_pos h]
  · show (if fullySurrounded N st.cell_type (st.particle_pos s)
        then ((0 : ℚ), (0 : ℚ), (0 : ℚ)) else st.particle_edge_pos s)
      = st.particle_edge_pos s
    rw [if_neg h]

/-- Witness for C10: in stBase with grid size 4 every cell is SAND and the
slot-(0,0,0) particle sits in the interior cell (1,1,1), so its marker is
reset to the origin. -/
theorem update_particle_edge_pos_characterization_witness :
    (update_particle_edge_pos 4 stBase).particle_edge_pos (0, 0, 0)
      = ((0 : ℚ), (0 : ℚ), (0 : ℚ)) :=
  (update_particle_edge_pos_characterization 4 stBase (0, 0, 0)).1
    (by norm_num [fullySurrounded, stBase, clampedCell, trunc, clampI, SAND])

/-- Counterexample to claim C7 as stated: reset_fields does not zero the
saved velocity buffers (nor the stress tensors, rigid flag, splat-weight
accumulators or edge-position markers).  Starting from a state whose
v_x_saved holds 5 everywhere, the value 5 survives reset_fields. -/
theorem reset_fields_saved_not_cleared :
    (reset_fields 3 ((1, 1), (1, 1), (1, 1)) (fun _ _ => 0)
        { stBase with v_x_saved := fun _ => 5 }).v_x_saved (0, 0, 0) = 5
    ∧ (5 : ℚ) ≠ 0 :=
  ⟨rfl, by norm_num⟩

/-- Claim C7 amended: reset_fields zeroes the cell-type, pressure and
divergence fields, the three velocity lattices, the three force
accumulators, and the particle positions, velocities and active flags, then
re-runs classification (init_cell_type) and particle placement
(init_particles); the strain-rate, frictional-stress and rigid-stress
tensors, the frictional-stress divergence, the rigid flags, the saved
velocity buffers, the splat-weight accumulators and the particle
edge-position markers are left unchanged. -/
theorem reset_fields_characterization (N : ℕ) (sand : SandRegion)
    (rnd : Slot → Fin 3 → ℤ) (st : SimState) :
    (reset_fields N sand rnd st).cell_type = init_cell_type N sand
    ∧ (reset_fields N sand rnd st).pressure = (fun _ => 0)
    ∧ (reset_fields N sand rnd st).divergence = (fun _ => 0)
    ∧ (reset_fields N sand rnd st).v_x = (fun _ => 0)
    ∧ (reset_fields N sand rnd st).v_y = (fun _ => 0)
    ∧ (reset_fields N sand rnd st).v_z = (fun _ => 0)
    ∧ (reset_fields N sand rnd st).f_x = (fun _ => 0)
    ∧ (reset_fields N sand rnd st).f_y = (fun _ => 0)
    ∧ (reset_fields N sand rnd st).f_z = (fun _ => 0)
    ∧ (reset_fields N sand rnd st).particle_pos
      = init_particles_pos (init_cell_type N sand) rnd (fun _ => (0, 0, 0))
    ∧ (reset_fields N sand rnd st).particle_v = (fun _ => (0, 0, 0))
    ∧ (reset_fields N sand rnd st).particle_active
      = init_particles_active (init_cell_type N sand)
    ∧ (reset_fields N sand rnd st).strain_rate = st.strain_rate
    ∧ (reset_fields N sand rnd st).frictional_stress = st.frictional_stress
    ∧ (reset_fields N sand rnd st).frictional_stress_divergence
      = st.frictional_stress_divergence
    ∧ (reset_fields N sand rnd st).rigid_stress = st.rigid_stress
    ∧ (reset_fields N sand rnd st).cell_rigid = st.cell_rigid
    ∧ (reset_fields N sand rnd st).v_x_saved = st.v_x_saved
    ∧ (reset_fields N sand rnd st).v_y_saved = st.v_y_saved
    ∧ (reset_fields N sand rnd st).v_z_saved = st.v_z_saved
    ∧ (reset_fields N sand rnd st).splat_x_weights = st.splat_x_weights
    ∧ (reset_fields N sand rnd st).splat_y_weights = st.splat_y_weights
    ∧ (reset_fields N sand rnd st).splat_z_weights = st.splat_z_weights
    ∧ (reset_fields N sand rnd st).particle_edge_pos = st.particle_edge_pos
    ∧ (reset_fields N sand rnd st).pic_fraction = st.pic_fraction :=
  ⟨rfl, rfl, rfl, rfl, rfl, rfl, rfl, rfl, rfl, rfl, rfl, rfl, rfl, rfl, rfl,
    rfl, rfl, rfl, rfl, rfl, rfl, rfl, rfl, rfl, rfl⟩

lemma exists_boundary_face_iff (N : ℕ) (hN : 1 ≤ N) (m : ℕ) :
    (∃ i ∈ Finset.range N, (i = 0 ∨ i = N - 1) ∧ (m = i ∨ m = i + 1))
      ↔ (m = 0 ∨ m = 1 ∨ m = N - 1 ∨ m = N) := by
  constructor
  · rintro ⟨i, hi, h1, h2⟩
    rw [Finset.mem_range] at hi
    omega
  · intro h
    rcases h with h | h | h | h
    · exact ⟨0, Finset.mem_range.mpr (by omega), Or.inl rfl, Or.inl h⟩
    · exact ⟨0, Finset.mem_range.mpr (by omega), Or.inl rfl, Or.inr (by omega)⟩
    · exact ⟨N - 1, Finset.mem_range.mpr (by omega), Or.inr rfl, Or.inl h⟩
    · exact ⟨N - 1, Finset.mem_range.mpr (by omega), Or.inr rfl, Or.inr (by omega)⟩

/-- Claim C9: for a positive grid size, neumann_boundary_conditions zeroes
exactly the wall-normal velocity faces bracketing boundary-shell cells on
their wall axis — v_x at x-indices 0, 1, N-1 and N over the cell range of
the other two axes, and v_y, v_z analogously — and leaves every other
velocity-lattice entry, in particular every tangential component on a
boundary face, unchanged. -/
theorem neumann_zeroes_wall_normal_faces (N : ℕ) (hN : 1 ≤ N) (st : SimState)
    (c : Idx) :
    ((neumann_boundary_conditions N st).v_x c
      = if (c.1 = 0 ∨ c.1 = 1 ∨ c.1 = N - 1 ∨ c.1 = N) ∧ c.2.1 < N ∧ c.2.2 < N
        then 0 else st.v_x c)
    ∧ ((neumann_boundary_conditions N st).v_y c
      = if c.1 < N ∧ (c.2.1 = 0 ∨ c.2.1 = 1 ∨ c.2.1 = N - 1 ∨ c.2.1 = N)
          ∧ c.2.2 < N
        then 0 else st.v_y c)
    ∧ ((neumann_boundary_conditions N st).v_z c
      = if c.1 < N ∧ c.2.1 < N
          ∧ (c.2.2 = 0 ∨ c.2.2 = 1 ∨ c.2.2 = N - 1 ∨ c.2.2 = N)
        then 0 else st.v_z c) := by
  refine ⟨?_, ?_, ?_⟩
  · simp only [neumann_boundary_conditions, exists_boundary_face_iff N hN]
  · simp only [neumann_boundary_conditions, exists_boundary_face_iff N hN]
  · simp only [neumann_boundary_conditions, exists_boundary_face_iff N hN]

/-- Witness for C9: the wall-normal x-face at (0,0,0) of a grid of size 2. -/
theorem neumann_zeroes_wall_normal_faces_witness :
    (neumann_boundary_conditions 2 stBase).v_x (0, 0, 0)
      = if ((0 : ℕ) = 0 ∨ (0 : ℕ) = 1 ∨ (0 : ℕ) = 2 - 1 ∨ (0 : ℕ) = 2)
          ∧ (0 : ℕ) < 2 ∧ (0 : ℕ) < 2
        then 0 else stBase.v_x (0, 0, 0) :=
  (neumann_zeroes_wall_normal_faces 2 (by decide) stBase (0, 0, 0)).1

lemma jitter_bounds (r : ℤ) : -(1 / 4 : ℚ) ≤ jitter r ∧ jitter r ≤ 1 / 4 := by
  unfold jitter
  have h0 : (0 : ℤ) ≤ r % 50 := Int.emod_nonneg r (by norm_num)
  have h1 : r % 50 < 50 := Int.emod_lt_of_pos r (by norm_num)
  constructor
  · have h2 : (-25 : ℚ) ≤ ((r % 50 - 25 : ℤ) : ℚ) := by
      exact_mod_cast (by omega : (-25 : ℤ) ≤ r % 50 - 25)
    linarith
  · have h2 : ((r % 50 - 25 : ℤ) : ℚ) ≤ 24 := by
      exact_mod_cast (by omega : r % 50 - 25 ≤ (24 : ℤ))
    linarith

lemma octant_coord_bound (idx par : ℕ) (hpar : par ≤ 1) (r : ℤ) :
    |(if par = 0 then (idx : ℚ) + 0.25 + jitter r else (idx : ℚ) + 0.75 + jitter r)
      - ((idx : ℚ) + if par = 0 then 0.25 else 0.75)| ≤ 0.25 := by
  have hj := jitter_bounds r
  have h025 : (0.25 : ℚ) = 1 / 4 := by norm_num
  have h075 : (0.75 : ℚ) = 3 / 4 := by norm_num
  rcases Nat.le_one_iff_eq_zero_or_eq_one.mp hpar with rfl | rfl
  · rw [if_pos rfl, if_pos rfl, h025, abs_le]
    constructor <;> linarith [hj.1, hj.2]
  · rw [if_neg one_ne_zero, if_neg one_ne_zero, h025, h075, abs_le]
    constructor <;> linarith [hj.1, hj.2]

lemma init_particles_pos_octant (ct : Grid) (rnd : Slot → Fin 3 → ℤ)
    (old : Slot → Vec3) (i j k a b c : ℕ) (ha : a ≤ 1) (hb : b ≤ 1) (hc : c ≤ 1)
    (hcell : ct (i, j, k) = SAND) :
    |(init_particles_pos ct rnd old (2 * i + a, 2 * j + b, 2 * k + c)).1
      - ((i : ℚ) + if a = 0 then 0.25 else 0.75)| ≤ 0.25
    ∧ |(init_particles_pos ct rnd old (2 * i + a, 2 * j + b, 2 * k + c)).2.1
      - ((j : ℚ) + if b = 0 then 0.25 else 0.75)| ≤ 0.25
    ∧ |(init_particles_pos ct rnd old (2 * i + a, 2 * j + b, 2 * k + c)).2.2
      - ((k : ℚ) + if c = 0 then 0.25 else 0.75)| ≤ 0.25 := by
  unfold init_particles_pos
  dsimp only
  rw [show (2 * i + a) / 2 = i from by omega, show (2 * j + b) / 2 = j from by omega,
    show (2 * k + c) / 2 = k from by omega]
  rw [if_pos hcell]
  dsimp only
  simp only [show (2 * i + a) % 2 = a from by omega,
    show (2 * j + b) % 2 = b from by omega, show (2 * k + c) % 2 = c from by omega]
  exact ⟨octant_coord_bound i a ha _, octant_coord_bound j b hb _,
    octant_coord_bound k c hc _⟩

/-- Claim C8: after initialization (reset_fields), for every cell (i,j,k)
classified SAND and every octant (a,b,c) ∈ {0,1}³, the particle slot
(2i+a, 2j+b, 2k+c) is active and each of its position coordinates lies
within ±0.25 of the quarter point (index + 0.25, even slot parity) or
three-quarter point (index + 0.75, odd slot parity) of its octant, for every
outcome of the random jitter source; and a slot is active exactly when its
base cell is SAND, so slots over non-SAND cells are inactive. -/
theorem init_particles_octants (N : ℕ) (sand : SandRegion)
    (rnd : Slot → Fin 3 → ℤ) (st : SimState) (i j k a b c : ℕ)
    (ha : a ≤ 1) (hb : b ≤ 1) (hc : c ≤ 1)
    (hcell : (reset_fields N sand rnd st).cell_type (i, j, k) = SAND) :
    (reset_fields N sand rnd st).particle_active (2 * i + a, 2 * j + b, 2 * k + c) = 1
    ∧ |((reset_fields N sand rnd st).particle_pos (2 * i + a, 2 * j + b, 2 * k + c)).1
      - ((i : ℚ) + if a = 0 then 0.25 else 0.75)| ≤ 0.25
    ∧ |((reset_fields N sand rnd st).particle_pos (2 * i + a, 2 * j + b, 2 * k + c)).2.1
      - ((j : ℚ) + if b = 0 then 0.25 else 0.75)| ≤ 0.25
    ∧ |((reset_fields N sand rnd st).particle_pos (2 * i + a, 2 * j + b, 2 * k + c)).2.2
      - ((k : ℚ) + if c = 0 then 0.25 else 0.75)| ≤ 0.25
    ∧ ∀ s : Slot, ((reset_fields N sand rnd st).particle_active s = 1
        ↔ (reset_fields N sand rnd st).cell_type (s.1 / 2, s.2.1 / 2, s.2.2 / 2)
          = SAND) := by
  have hcell' : init_cell_type N sand (i, j, k) = SAND := hcell
  have hbounds := init_particles_pos_octant (init_cell_type N sand) rnd
    (fun _ => (0, 0, 0)) i j k a b c ha hb hc hcell'
  refine ⟨?_, hbounds.1, hbounds.2.1, hbounds.2.2, ?_⟩
  · show init_particles_active (init_cell_type N sand)
      (2 * i + a, 2 * j + b, 2 * k + c) = 1
    unfold init_particles_active
    dsimp only
    rw [show (2 * i + a) / 2 = i from by omega,
      show (2 * j + b) / 2 = j from by omega,
      show (2 * k + c) / 2 = k from by omega]
    rw [if_pos hcell']
  · intro s
    show init_particles_active (init_cell_type N sand) s = 1
      ↔ init_cell_type N sand (s.1 / 2, s.2.1 / 2, s.2.2 / 2) = SAND
    unfold init_particles_active
    split <;> simp_all

/-- Witness for C8: octant (0,0,0) of the SAND cell (1,1,1) in a grid of
size 4 with sand box [1,2]³ and a constant jitter source. -/
theorem init_particles_octants_witness :
    (reset_fields 4 ((1, 2), (1, 2), (1, 2)) (fun _ _ => 7) stBase).particle_active
      (2 * 1 + 0, 2 * 1 + 0, 2 * 1 + 0) = 1 :=
  (init_particles_octants 4 ((1, 2), (1, 2), (1, 2)) (fun _ _ => 7) stBase
    1 1 1 0 0 0 (by decide) (by decide) (by decide) (by decide)).1

lemma ite_nonneg (P : Prop) [Decidable P] (w : ℚ) (hw : 0 ≤ w) :
    0 ≤ if P then w else 0 := by
  split
  · exact hw
  · exact le_refl 0

lemma splatWeightAt_nonneg (x y z xo yo zo : ℚ) (rx ry rz : ℕ) (c : Idx) :
    0 ≤ splatWeightAt x y z xo yo zo rx ry rz c := by
  have hx0 := frac_nonneg x xo rx
  have hy0 := frac_nonneg y yo ry
  have hz0 := frac_nonneg z zo rz
  have hx1 : (0 : ℚ) ≤ 1 - frac x xo rx := by have := frac_le_one x xo rx; linarith
  have hy1 : (0 : ℚ) ≤ 1 - frac y yo ry := by have := frac_le_one y yo ry; linarith
  have hz1 : (0 : ℚ) ≤ 1 - frac z zo rz := by have := frac_le_one z zo rz; linarith
  unfold splatWeightAt
  exact add_nonneg (add_nonneg (add_nonneg (add_nonneg (add_nonneg (add_nonneg
    (add_nonneg
      (ite_nonneg _ _ (mul_nonneg (mul_nonneg hx1 hy1) hz1))
      (ite_nonneg _ _ (mul_nonneg (mul_nonneg hx0 hy1) hz1)))
      (ite_nonneg _ _ (mul_nonneg (mul_nonneg hx1 hy0) hz1)))
      (ite_nonneg _ _ (mul_nonneg (mul_nonneg hx1 hy1) hz0)))
      (ite_nonneg _ _ (mul_nonneg (mul_nonneg hx0 hy1) hz0)))
      (ite_nonneg _ _ (mul_nonneg (mul_nonneg hx0 hy0) hz1)))
      (ite_nonneg _ _ (mul_nonneg (mul_nonneg hx1 hy0) hz0)))
      (ite_nonneg _ _ (mul_nonneg (mul_nonneg hx0 hy0) hz0))

lemma p2g_x_weight_nonneg (N : ℕ) (ppos : Slot → Vec3) (pactive : Slot → ℤ)
    (s : Slot) (c : Idx) : 0 ≤ p2g_x_weight N ppos pactive s c := by
  unfold p2g_x_weight
  exact ite_nonneg _ _ (splatWeightAt_nonneg _ _ _ _ _ _ _ _ _ _)

lemma p2g_y_weight_nonneg (N : ℕ) (ppos : Slot → Vec3) (pactive : Slot → ℤ)
    (s : Slot) (c : Idx) : 0 ≤ p2g_y_weight N ppos pactive s c := by
  unfold p2g_y_weight
  exact ite_nonneg _ _ (splatWeightAt_nonneg _ _ _ _ _ _ _ _ _ _)

lemma p2g_z_weight_nonneg (N : ℕ) (ppos : Slot → Vec3) (pactive : Slot → ℤ)
    (s : Slot) (c : Idx) : 0 ≤ p2g_z_weight N ppos pactive s c := by
  unfold p2g_z_weight
  exact ite_nonneg _ _ (splatWeightAt_nonneg _ _ _ _ _ _ _ _ _ _)

lemma ite_mul_zero (P : Prop) [Decidable P] (v w : ℚ)
    (h : (if P then w else 0) = 0) : (if P then v * w else 0) = 0 := by
  by_cases hP : P
  · rw [if_pos hP] at h
    rw [if_pos hP, h, mul_zero]
  · rw [if_neg hP]

lemma p2g_x_value_zero (N : ℕ) (ppos pv : Slot → Vec3) (pactive : Slot → ℤ)
    (s : Slot) (c : Idx) (h : p2g_x_weight N ppos pactive s c = 0) :
    p2g_x_value N ppos pv pactive s c = 0 := by
  unfold p2g_x_weight at h
  unfold p2g_x_value
  exact ite_mul_zero _ _ _ h

lemma p2g_y_value_zero (N : ℕ) (ppos pv : Slot → Vec3) (pactive : Slot → ℤ)
    (s : Slot) (c : Idx) (h : p2g_y_weight N ppos pactive s c = 0) :
    p2g_y_value N ppos pv pactive s c = 0 := by
  unfold p2g_y_weight at h
  unfold p2g_y_value
  exact ite_mul_zero _ _ _ h

lemma p2g_z_value_zero (N : ℕ) (ppos pv : Slot → Vec3) (pactive : Slot → ℤ)
    (s : Slot) (c : Idx) (h : p2g_z_weight N ppos pactive s c = 0) :
    p2g_z_value N ppos pv pactive s c = 0 := by
  unfold p2g_z_weight at h
  unfold p2g_z_value
  exact ite_mul_zero _ _ _ h

lemma list_sum_zero_of_nonneg {l : List ℚ} (h : ∀ x ∈ l, 0 ≤ x)
    (hs : l.sum = 0) : ∀ x ∈ l, x = 0 := by
  induction l with
  | nil => simp
  | cons a t ih =>
    simp only [List.sum_cons] at hs
    have ha := h a (by simp)
    have ht : ∀ x ∈ t, 0 ≤ x := fun x hx => h x (by simp [hx])
    have hta : (0 : ℚ) ≤ t.sum := List.sum_nonneg ht
    have ha0 : a = 0 := by linarith
    have hts : t.sum = 0 := by linarith
    intro x hx
    rcases List.mem_cons.mp hx with rfl | hx
    · exact ha0
    · exact ih ht hts x hx

lemma p2g_step_apply (N : ℕ) (ppos pv : Slot → Vec3) (pactive : Slot → ℤ)
    (a : P2G) (s : Slot) (c : Idx) :
    (p2g_step N ppos pv pactive a s).vx c
      = a.vx c + p2g_x_value N ppos pv pactive s c
    ∧ (p2g_step N ppos pv pactive a s).vy c
      = a.vy c + p2g_y_value N ppos pv pactive s c
    ∧ (p2g_step N ppos pv pactive a s).vz c
      = a.vz c + p2g_z_value N ppos pv pactive s c
    ∧ (p2g_step N ppos pv pactive a s).wx c
      = a.wx c + p2g_x_weight N ppos pactive s c
    ∧ (p2g_step N ppos pv pactive a s).wy c
      = a.wy c + p2g_y_weight N ppos pactive s c
    ∧ (p2g_step N ppos pv pactive a s).wz c
      = a.wz c + p2g_z_weight N ppos pactive s c := by
  by_cases h : pactive s = 1
  · simp only [p2g_step, p2g_x_value, p2g_y_value, p2g_z_value, p2g_x_weight,
      p2g_y_weight, p2g_z_weight, h, if_true, eq_self_iff_true]
    exact ⟨splat_fst_apply _ _ _ _ _ _ _ _ _ _ _ _ c,
      splat_fst_apply _ _ _ _ _ _ _ _ _ _ _ _ c,
      splat_fst_apply _ _ _ _ _ _ _ _ _ _ _ _ c,
      splat_snd_apply _ _ _ _ _ _ _ _ _ _ _ _ c,
      splat_snd_apply _ _ _ _ _ _ _ _ _ _ _ _ c,
      splat_snd_apply _ _ _ _ _ _ _ _ _ _ _ _ c⟩
  · simp [p2g_step, p2g_x_value, p2g_y_value, p2g_z_value, p2g_x_weight,
      p2g_y_weight, p2g_z_weight, h]

lemma p2g_foldl_apply (N : ℕ) (ppos pv : Slot → Vec3) (pactive : Slot → ℤ)
    (c : Idx) :
    ∀ (l : List Slot) (a : P2G),
    ((l.foldl (p2g_step N ppos pv pactive) a).vx c
      = a.vx c + (l.map fun s => p2g_x_value N ppos pv pactive s c).sum)
    ∧ ((l.foldl (p2g_step N ppos pv pactive) a).vy c
      = a.vy c + (l.map fun s => p2g_y_value N ppos pv pactive s c).sum)
    ∧ ((l.foldl (p2g_step N ppos pv pactive) a).vz c
      = a.vz c + (l.map fun s => p2g_z_value N ppos pv pactive s c).sum)
    ∧ ((l.foldl (p2g_step N ppos pv pactive) a).wx c
      = a.wx c + (l.map fun s => p2g_x_weight N ppos pactive s c).sum)
    ∧ ((l.foldl (p2g_step N ppos pv pactive) a).wy c
      = a.wy c + (l.map fun s => p2g_y_weight N ppos pactive s c).sum)
    ∧ ((l.foldl (p2g_step N ppos pv pactive) a).wz c
      = a.wz c + (l.map fun s => p2g_z_weight N ppos pactive s c).sum) := by
  intro l
  induction l with
  | nil => intro a; simp
  | cons s t ih =>
    intro a
    obtain ⟨h1, h2, h3, h4, h5, h6⟩ := p2g_step_apply N ppos pv pactive a s c
    obtain ⟨g1, g2, g3, g4, g5, g6⟩ := ih (p2g_step N ppos pv pactive a s)
    simp only [List.foldl_cons, List.map_cons, List.sum_cons]
    exact ⟨by rw [g1, h1]; ring, by rw [g2, h2]; ring, by rw [g3, h3]; ring,
      by rw [g4, h4]; ring, by rw [g5, h5]; ring, by rw [g6, h6]; ring⟩

/-- Claim C4: after particles_to_grid, the accumulated splat weight of every
site of each velocity lattice is the sum of the per-particle trilinear
weight contributions (inactive particles contributing nothing); every site
with positive accumulated weight holds the sum of the weight-times-velocity
contributions of the active particles divided by that weight, and every site
with zero accumulated weight is left at exactly zero, never divided. -/
theorem particles_to_grid_weighted_average (N : ℕ) (st : SimState) (c : Idx) :
    ((particles_to_grid N st).splat_x_weights c
      = ((slotList N).map fun s =>
          p2g_x_weight N st.particle_pos st.particle_active s c).sum)
    ∧ (0 < ((slotList N).map fun s =>
          p2g_x_weight N st.particle_pos st.particle_active s c).sum →
        (particles_to_grid N st).v_x c
          = ((slotList N).map fun s =>
              p2g_x_value N st.particle_pos st.particle_v st.particle_active s c).sum
            / ((slotList N).map fun s =>
              p2g_x_weight N st.particle_pos st.particle_active s c).sum)
    ∧ (((slotList N).map fun s =>
          p2g_x_weight N st.particle_pos st.particle_active s c).sum = 0 →
        (particles_to_grid N st).v_x c = 0)
    ∧ ((particles_to_grid N st).splat_y_weights c
      = ((slotList N).map fun s =>
          p2g_y_weight N st.particle_pos st.particle_active s c).sum)
    ∧ (0 < ((slotList N).map fun s =>
          p2g_y_weight N st.particle_pos st.particle_active s c).sum →
        (particles_to_grid N st).v_y c
          = ((slotList N).map fun s =>
              p2g_y_value N st.particle_pos st.particle_v st.particle_active s c).sum
            / ((slotList N).map fun s =>
              p2g_y_weight N st.particle_pos st.particle_active s c).sum)
    ∧ (((slotList N).map fun s =>
          p2g_y_weight N st.particle_pos st.particle_active s c).sum = 0 →
        (particles_to_grid N st).v_y c = 0)
    ∧ ((particles_to_grid N st).splat_z_weights c
      = ((slotList N).map fun s =>
          p2g_z_weight N st.particle_pos st.particle_active s c).sum)
    ∧ (0 < ((slotList N).map fun s =>
          p2g_z_weight N st.particle_pos st.particle_active s c).sum →
        (particles_to_grid N st).v_z c
          = ((slotList N).map fun s =>
              p2g_z_value N st.particle_pos st.particle_v st.particle_active s c).sum
            / ((slotList N).map fun s =>
              p2g_z_weight N st.particle_pos st.particle_active s c).sum)
    ∧ (((slotList N).map fun s =>
          p2g_z_weight N st.particle_pos st.particle_active s c).sum = 0 →
        (particles_to_grid N st).v_z c = 0) := by
  obtain ⟨h1, h2, h3, h4, h5, h6⟩ :=
    p2g_foldl_apply N st.particle_pos st.particle_v st.particle_active c
      (slotList N)
      ⟨fun _ => 0, fun _ => 0, fun _ => 0, fun _ => 0, fun _ => 0, fun _ => 0⟩
  have h1' := h1.trans (zero_add _)
  have h2' := h2.trans (zero_add _)
  have h3' := h3.trans (zero_add _)
  have h4' := h4.trans (zero_add _)
  have h5' := h5.trans (zero_add _)
  have h6' := h6.trans (zero_add _)
  simp only [particles_to_grid]
  refine ⟨h4', fun hpos => ?_, fun hzero => ?_, h5', fun hpos => ?_,
    fun hzero => ?_, h6', fun hpos => ?_, fun hzero => ?_⟩
  · simp only [h1', h4']
    rw [if_pos hpos]
  · have hall := list_sum_zero_of_nonneg (fun x hx => by
      obtain ⟨s, hs, rfl⟩ := List.mem_map.mp hx
      exact p2g_x_weight_nonneg N st.particle_pos st.particle_active s c) hzero
    have hV : ((slotList N).map fun s =>
        p2g_x_value N st.particle_pos st.particle_v st.particle_active s c).sum
        = 0 := by
      apply List.sum_eq_zero
      intro x hx
      obtain ⟨s, hs, rfl⟩ := List.mem_map.mp hx
      exact p2g_x_value_zero N st.particle_pos st.particle_v st.particle_active
        s c (hall _ (List.mem_map_of_mem _ hs))
    simp only [h1', h4', hzero, hV]
    simp
  · simp only [h2', h5']
    rw [if_pos hpos]
  · have hall := list_sum_zero_of_nonneg (fun x hx => by
      obtain ⟨s, hs, rfl⟩ := List.mem_map.mp hx
      exact p2g_y_weight_nonneg N st.particle_pos st.particle_active s c) hzero
    have hV : ((slotList N).map fun s =>
        p2g_y_value N st.particle_pos st.particle_v st.particle_active s c).sum
        = 0 := by
      apply List.sum_eq_zero
      intro x hx
      obtain ⟨s, hs, rfl⟩ := List.mem_map.mp hx
      exact p2g_y_value_zero N st.particle_pos st.particle_v st.particle_active
        s c (hall _ (List.mem_map_of_mem _ hs))
    simp only [h2', h5', hzero, hV]
    simp
  · simp only [h3', h6']
    rw [if_pos hpos]
  · have hall := list_sum_zero_of_nonneg (fun x hx => by
      obtain ⟨s, hs, rfl⟩ := List.mem_map.mp hx
      exact p2g_z_weight_nonneg N st.particle_pos st.particle_active s c) hzero
    have hV : ((slotList N).map fun s =>
        p2g_z_value N st.particle_pos st.particle_v st.particle_active s c).sum
        = 0 := by
      apply List.sum_eq_zero
      intro x hx
      obtain ⟨s, hs, rfl⟩ := List.mem_map.mp hx
      exact p2g_z_value_zero N st.particle_pos st.particle_v st.particle_active
        s c (hall _ (List.mem_map_of_mem _ hs))
    simp only [h3', h6', hzero, hV]
    simp

/-- Witness for C4: with every particle inactive in a grid of size 1, the
x lattice accumulates zero weight at site (0,0,0) and the site is left at
exactly zero. -/
theorem particles_to_grid_weighted_average_witness :
    (particles_to_grid 1 { stBase with particle_active := fun _ => 0 }).v_x
      (0, 0, 0) = 0 :=
  (particles_to_grid_weighted_average 1
    { stBase with particle_active := fun _ => 0 } (0, 0, 0)).2.2.1
    (by apply List.sum_eq_zero
        intro x hx
        obtain ⟨s, hs, rfl⟩ := List.mem_map.mp hx
        simp [p2g_x_weight])

end MacGrid
